import Mathlib

/-!
# Verification of the pm2 management service (src/index.js)

A shallow embedding of the pm2 HTTP/WebSocket management service.
File contents and log lines are modelled as `List Char` (named `Str`);
the JavaScript idiom `content.split('\n').filter(line => line.trim())`
is embedded as `nonBlankLines`.  The asynchronous parts (the spawned
`tail -f` processes and the WebSocket message flow) are modelled as
pure functions from an explicit event history to the list of messages
the server sends.
-/

namespace PM2

/-- Strings of the JavaScript program, modelled as lists of characters so
that every operation reduces by structural recursion. -/
abbrev Str := List Char

/-- Characters removed by JavaScript's `String.prototype.trim`. -/
def isWsChar (c : Char) : Bool :=
  c = ' ' || c = '\t' || c = '\n' || c = '\r' ||
  c = '\x0b' || c = '\x0c'

/-- A line is blank when `line.trim()` is falsy, i.e. every character is
whitespace. -/
def isBlank (l : Str) : Bool := l.all isWsChar

/-- JavaScript `str.split('\n')`: split on every newline, keeping empty
segments (`"".split('\n') = [""]`, `"a\n".split('\n') = ["a", ""]`). -/
def splitLines : Str → List Str
  | [] => [[]]
  | c :: cs =>
    if c = '\n' then [] :: splitLines cs
    else
      match splitLines cs with
      | [] => [[c]]
      | l :: ls => (c :: l) :: ls

/-- The idiom `content.split('\n').filter(line => line.trim())` used
throughout src/index.js (lines 208, 226, 242, 364, 378). -/
def nonBlankLines (content : Str) : List Str :=
  (splitLines content).filter (fun l => !isBlank l)

/-- JavaScript `arr.slice(-n)`: the last `n` elements (the whole list when
it is shorter than `n`). -/
def lastN (n : Nat) (l : List Str) : List Str := l.drop (l.length - n)

/-! ## Process Directory (getPM2Processes / getPM2Process, lines 61-109) -/

/-- One element of the JSON array produced by `pm2 jlist`, with the fields
src/index.js reads from it; optional fields model the `?.` accesses. -/
structure RawProc where
  name : Str
  status : Option Str
  pm_uptime : Option Nat
  memory : Option Nat
  cpu : Option Nat
  pid : Nat
  restart_time : Option Nat
  exec_mode : Option Str
deriving Repr, DecidableEq

/-- The summary object built by `getPM2Processes` (lines 65-74). -/
structure ManagedProcess where
  name : Str
  status : Str
  uptime : Nat
  memory : Nat
  cpu : Nat
  pid : Nat
  restarts : Nat
  mode : Str
deriving Repr, DecidableEq

/-- The per-process mapping of lines 65-74 of src/index.js. -/
def mapRawProc (p : RawProc) : ManagedProcess :=
  { name := p.name
    status := p.status.getD "unknown".toList
    uptime := p.pm_uptime.getD 0
    memory := p.memory.getD 0
    cpu := p.cpu.getD 0
    pid := p.pid
    restarts := p.restart_time.getD 0
    mode := p.exec_mode.getD "unknown".toList }

/-- The outcome of the `pm2 jlist` supervisor query as observed by the
try/catch in `getPM2Processes`: either a parsed process list, or a failure
(exec error or JSON parse error) carrying a message. -/
abbrev SupervisorQuery := Except Str (List RawProc)

/-- `getPM2Processes` (src/index.js lines 61-79): queries the supervisor;
on success maps every raw process; on any failure logs one message and
returns the empty list.  Returns the process list together with the list
of messages passed to `log`. -/
def getPM2Processes (query : SupervisorQuery) :
    List ManagedProcess × List Str :=
  match query with
  | .ok procs => (procs.map mapRawProc, [])
  | .error e =>
    ([], ["Error getting PM2 processes: ".toList ++ e])

/-- `getPM2Process` (src/index.js lines 82-109), reduced to the part its
callers use: `none` when the query fails or no process has the given
name, `some` of the raw process otherwise. -/
def getPM2Process (query : SupervisorQuery) (name : Str) :
    Option RawProc :=
  match query with
  | .error _ => none
  | .ok procs => procs.find? (fun p => p.name = name)

/-! ## Process Control (restartPM2Process, lines 112-133) -/

/-- A supervisor command issued through `execAsync`. -/
inductive Cmd where
  | jlist
  | restart (name : Str)
  | stop (name : Str)
  | start (name : Str)
deriving Repr, DecidableEq

/-- The `{success, message}` result of the control functions. -/
structure CtrlResult where
  success : Bool
  message : Str
deriving Repr, DecidableEq

/-- `restartPM2Process` (src/index.js lines 112-133): re-validates
existence via `getPM2Process`; if absent returns the not-found failure
without running the restart command; otherwise runs `pm2 restart <name>`
and reports its outcome.  Returns the result together with the list of
supervisor commands issued. -/
def restartPM2Process (query : SupervisorQuery)
    (restartOutcome : Except Str Unit) (name : Str) :
    CtrlResult × List Cmd :=
  match getPM2Process query name with
  | none =>
    (⟨false, "Process ".toList ++ name ++ " not found".toList⟩,
     [Cmd.jlist])
  | some _ =>
    match restartOutcome with
    | .ok _ =>
      (⟨true, "Process ".toList ++ name ++
          " restarted successfully".toList⟩,
       [Cmd.jlist, Cmd.restart name])
    | .error e =>
      (⟨false, "Failed to restart ".toList ++ name ++
          ": ".toList ++ e⟩,
       [Cmd.jlist, Cmd.restart name])

/-! ## GET /pm2/[name]/logs (src/index.js lines 343-410) -/

/-- The `stdout`/`stderr` classification of a log line; src/index.js
writes it as the strings `'out'` and `'error'`. -/
inductive LogChannel where
  | out
  | error
deriving Repr, DecidableEq

/-- One entry of the `logs` array: the object literal
`{type, message, timestamp}` of lines 364-368 / 378-382, with exactly
those three fields. -/
structure LogEntry where
  type : LogChannel
  message : Str
  timestamp : Option Str
deriving Repr, DecidableEq

/-- The success body sent at lines 393-400. -/
structure LogsResponse where
  status : Str
  service : Str
  logs : List LogEntry
  totalLines : Nat
  outLogLines : Nat
  errorLogLines : Nat
deriving Repr, DecidableEq

/-- The body of the `action === 'logs'` branch (src/index.js lines
354-400) for an existing process.  `outContent`/`errContent` are the
file contents, `none` when `fs.existsSync` is false. -/
def logsSuccessBody (serviceName : Str)
    (outContent errContent : Option Str) : LogsResponse :=
  let outLogs :=
    match outContent with
    | none => []
    | some c => (nonBlankLines c).map
        (fun line => LogEntry.mk .out line none)
  let errorLogs :=
    match errContent with
    | none => []
    | some c => (nonBlankLines c).map
        (fun line => LogEntry.mk .error line none)
  let allLogs := (outLogs ++ errorLogs).reverse
  { status := "success".toList
    service := serviceName
    logs := allLogs.take 1000
    totalLines := allLogs.length
    outLogLines := outLogs.length
    errorLogLines := errorLogs.length }

/-- The full `GET /pm2/[name]/logs` handler: 404 (`none`) when the
process directory does not know the name, otherwise the success body. -/
def logsEndpoint (query : SupervisorQuery) (serviceName : Str)
    (outContent errContent : Option Str) : Option LogsResponse :=
  match getPM2Process query serviceName with
  | none => none
  | some _ => some (logsSuccessBody serviceName outContent errContent)

/-! ### Chronology of writes (for the most-recent-first question)

The two log files are produced by an external writer.  To speak about
the chronologically last line, we model the history as a sequence of
appends, each adding one newline-terminated line to one of the files. -/

/-- One external append of a line to the out or error log. -/
abbrev WriteEvent := LogChannel × Str

/-- Append one line (plus its newline terminator) to the pair
(out-content, error-content). -/
def applyWrite (files : Str × Str) (w : WriteEvent) : Str × Str :=
  match w with
  | (.out, line) => (files.1 ++ line ++ ['\n'], files.2)
  | (.error, line) => (files.1, files.2 ++ line ++ ['\n'])

/-- The file contents after a sequence of appends to initially empty
files. -/
def filesAfter (ws : List WriteEvent) : Str × Str :=
  ws.foldl applyWrite ([], [])

/-- The chronologically last line written across both files. -/
def lastWrittenLine (ws : List WriteEvent) : Option Str :=
  (ws.map Prod.snd).getLast?

/-! ## Log streaming (streamLogs, src/index.js lines 180-272) -/

/-- The `tail` stdout data handler (lines 225-228 and 241-244): each
received chunk is split on newlines, blank pieces are dropped, and every
remaining piece is sent immediately as one log message.  There is no
carry buffer for a trailing partial line. -/
def handleChunk (data : Str) : List Str := nonBlankLines data

/-- The messages produced by a sequence of data chunks arriving from the
tail process: each chunk handled independently by `handleChunk`. -/
def chunksEmitted (chunks : List Str) : List Str :=
  chunks.flatMap handleChunk

/-- The complete (newline-terminated) lines of a piece of appended
content; a trailing unterminated fragment is not a complete line. -/
def completeLines (content : Str) : List Str :=
  (splitLines content).dropLast

/-- A chunk made of the given complete lines, each newline-terminated:
the shape of a read that happens to end on a line boundary. -/
def joinLines (ls : List Str) : Str :=
  ls.flatMap (fun l => l ++ ['\n'])

/-! ### The spawned tail process and rotation

`startTailing` (line 223 / 239) spawns `tail -f -n 0 <path>`.  Plain
`tail -f` (not `-F`, not `--follow=name`) follows the file descriptor it
opened at start: it keeps emitting bytes appended to that original file,
and it does not re-check the path, so once the path is rotated to a
fresh file it sees nothing further.  We model the watched path's history
as a list of events at line granularity. -/

/-- The argv of the spawned tail process (src/index.js line 223). -/
def tailArgs (path : Str) : List Str :=
  ["-f".toList, "-n".toList, "0".toList, path]

/-- An event on the watched path: one full line appended to the file
currently at the path, or a rotation replacing the path with a fresh
file. -/
inductive FileEvent where
  | append (line : Str)
  | rotate
deriving Repr, DecidableEq

/-- Emissions of the spawned `tail -f -n 0 <path>` process over the
path's event history: it forwards every line appended to the file it
opened, and after a rotation all appends go to the replacement file,
which this tail never opens, so it emits nothing further. -/
def tailFEmits : List FileEvent → List Str
  | [] => []
  | .append l :: rest => l :: tailFEmits rest
  | .rotate :: _ => []

/-- All lines appended over the history, before and after rotations:
what a rotation-aware tailer (one that re-opens the path from offset 0
on an identity change) would emit. -/
def appendsOf : List FileEvent → List Str
  | [] => []
  | .append l :: rest => l :: appendsOf rest
  | .rotate :: rest => appendsOf rest

/-- One channel branch of `startTailing` (lines 220-233 for out,
236-249 for error): if `fs.existsSync` finds the file, replay the last
100 non-blank existing lines and then spawn `tail -f -n 0`, streaming
subsequent appends; if the file does not exist, do nothing at all — no
tailer is spawned, no polling or retry is installed. -/
def channelEmissions (exists0 : Bool) (initialContent : Str)
    (events : List FileEvent) : List Str :=
  if exists0 then
    lastN 100 (nonBlankLines initialContent) ++ tailFEmits events
  else []

/-! ### Session tailer ownership and cleanup -/

/-- The query-string channel filter (`query.type`, default `'both'`). -/
inductive ChannelFilter where
  | out
  | error
  | both
deriving Repr, DecidableEq

/-- Whether the filter makes `startTailing` handle the out log
(`logType === 'both' || logType === 'out'`). -/
def allowsOut : ChannelFilter → Bool
  | .both => true
  | .out => true
  | .error => false

/-- Whether the filter makes `startTailing` handle the error log
(`logType === 'both' || logType === 'error'`). -/
def allowsErr : ChannelFilter → Bool
  | .both => true
  | .error => true
  | .out => false

/-- The two tail processes a session may spawn: the out tailer, assigned
to the `tailProcess` variable (line 223), and the error tailer, bound
only to the local `errorTailProcess` (line 239). -/
inductive TailerId where
  | outTail
  | errTail
deriving Repr, DecidableEq

/-- The tailer bookkeeping of one `streamLogs` session: the value of the
`tailProcess` variable, the tailers spawned, and the kills issued. -/
structure SessionState where
  tailProcess : Option TailerId
  spawned : List TailerId
  killed : List TailerId
deriving Repr, DecidableEq

/-- `startTailing` (lines 219-251): the out branch spawns the out tailer
and stores it in `tailProcess`; the error branch spawns the error tailer
as the local `errorTailProcess`, which is never stored anywhere the rest
of the session can reach. -/
def startTailing (filter : ChannelFilter) (outExists errExists : Bool) :
    SessionState :=
  let s0 : SessionState := ⟨none, [], []⟩
  let s1 :=
    if allowsOut filter && outExists then
      { s0 with tailProcess := some TailerId.outTail
                spawned := s0.spawned ++ [TailerId.outTail] }
    else s0
  if allowsErr filter && errExists then
    { s1 with spawned := s1.spawned ++ [TailerId.errTail] }
  else s1

/-- `cleanup` (lines 256-266): kills `tailProcess` if set; the
`watchers` array is always empty, so nothing else is released. -/
def cleanup (s : SessionState) : SessionState :=
  match s.tailProcess with
  | some t => { s with killed := s.killed ++ [t] }
  | none => s

/-- The tailers spawned by the session and never killed. -/
def runningTailers (s : SessionState) : List TailerId :=
  s.spawned.filter (fun t => !s.killed.contains t)

/-! ### The WebSocket connection handler (src/index.js lines 580-655) -/

/-- An outbound WebSocket message, by its `type` field. -/
inductive WsMsg where
  | errorMsg (message : Str)
  | connected (process : Str)
  | logMsg (process : Str) (channel : LogChannel) (message : Str)
  | pong
deriving Repr, DecidableEq

/-- Whether a message is the `connected` acknowledgment. -/
def isConnectedMsg : WsMsg → Bool
  | .connected _ => true
  | _ => false

/-- Whether a message is a `log` message. -/
def isLogMsg : WsMsg → Bool
  | .logMsg _ _ _ => true
  | _ => false

/-- The log messages produced by `streamLogs` (lines 180-272): the
replayed backlog of each selected existing file (last 100 non-blank
lines, out first, then error, as `startTailing` runs them in that
order), followed by the live messages from the spawned tailers, given
here as the merged arrival order `live`. -/
def streamLogsMsgs (procName : Str) (filter : ChannelFilter)
    (outExists : Bool) (outContent : Str)
    (errExists : Bool) (errContent : Str)
    (live : List (LogChannel × Str)) : List WsMsg :=
  (if allowsOut filter && outExists then
    (lastN 100 (nonBlankLines outContent)).map
      (fun l => WsMsg.logMsg procName .out l)
   else [])
  ++ (if allowsErr filter && errExists then
    (lastN 100 (nonBlankLines errContent)).map
      (fun l => WsMsg.logMsg procName .error l)
   else [])
  ++ live.map (fun p => WsMsg.logMsg procName p.1 p.2)

/-- The message trace of the WebSocket connection handler (lines
595-654): if the existence check fails, one error message; otherwise the
`connected` acknowledgment (lines 606-611) followed by everything
`streamLogs` sends. -/
def connectionMsgs (query : SupervisorQuery) (procName : Str)
    (filter : ChannelFilter)
    (outExists : Bool) (outContent : Str)
    (errExists : Bool) (errContent : Str)
    (live : List (LogChannel × Str)) : List WsMsg :=
  match getPM2Process query procName with
  | none =>
    [WsMsg.errorMsg ("Process ".toList ++ procName ++
      " not found".toList)]
  | some _ =>
    WsMsg.connected procName ::
      streamLogsMsgs procName filter outExists outContent
        errExists errContent live

/-- A concrete write history: five error-log lines followed by ten
out-log lines, so the chronologically last write lands in the out log. -/
def sampleWrites : List WriteEvent :=
  [(LogChannel.error, "e1".toList), (LogChannel.error, "e2".toList),
   (LogChannel.error, "e3".toList), (LogChannel.error, "e4".toList),
   (LogChannel.error, "e5".toList),
   (LogChannel.out, "o1".toList), (LogChannel.out, "o2".toList),
   (LogChannel.out, "o3".toList), (LogChannel.out, "o4".toList),
   (LogChannel.out, "o5".toList), (LogChannel.out, "o6".toList),
   (LogChannel.out, "o7".toList), (LogChannel.out, "o8".toList),
   (LogChannel.out, "o9".toList), (LogChannel.out, "o10".toList)]

/-! ## Helper lemmas -/

theorem splitLines_append_newline (l s : Str) (h : '\n' ∉ l) :
    splitLines (l ++ '\n' :: s) = l :: splitLines s := by
  induction l with
  | nil => simp [splitLines]
  | cons c cs ih =>
    have hc : ¬ (c = '\n') := fun hc => h (hc ▸ List.mem_cons_self c cs)
    have hcs : '\n' ∉ cs := fun hm => h (List.mem_cons_of_mem _ hm)
    simp [splitLines, hc, ih hcs]

theorem splitLines_joinLines (ls : List Str)
    (h : ∀ l ∈ ls, '\n' ∉ l) :
    splitLines (joinLines ls) = ls ++ [[]] := by
  induction ls with
  | nil => simp [joinLines, splitLines]
  | cons l rest ih =>
    have h1 : '\n' ∉ l := h l (List.mem_cons_self _ _)
    have h2 : ∀ x ∈ rest, '\n' ∉ x :=
      fun x hx => h x (List.mem_cons_of_mem _ hx)
    have hjoin : joinLines (l :: rest) = l ++ '\n' :: joinLines rest := by
      simp [joinLines]
    rw [hjoin, splitLines_append_newline _ _ h1, ih h2]
    rfl

theorem nonBlankLines_joinLines (ls : List Str)
    (h : ∀ l ∈ ls, '\n' ∉ l ∧ isBlank l = false) :
    nonBlankLines (joinLines ls) = ls := by
  unfold nonBlankLines
  rw [splitLines_joinLines ls (fun l hl => (h l hl).1), List.filter_append]
  have h1 : ls.filter (fun l => !isBlank l) = ls :=
    List.filter_eq_self.mpr (fun a ha => by simp [(h a ha).2])
  have h2 : ([([] : Str)]).filter (fun l => !isBlank l) = [] := by decide
  rw [h1, h2, List.append_nil]

/-! ## C1: line delivery by the tail data handlers -/

/-- C1, counterexample.  Appending the single well-formed line
`"hello\n"` can reach the data handler as the two chunks `"hel"` and
`"lo\n"`; the handler has no partial-line buffer, so it delivers two
messages `"hel"` and `"lo"` instead of the one message `"hello"` that
the claim requires. -/
theorem tail_data_handler_splits_partial_line :
    completeLines ("hel".toList ++ "lo\n".toList) = ["hello".toList]
    ∧ chunksEmitted ["hel".toList, "lo\n".toList]
        = ["hel".toList, "lo".toList]
    ∧ chunksEmitted ["hel".toList, "lo\n".toList] ≠ ["hello".toList] := by
  decide

/-- C1, amended.  When every chunk arriving from the tail process ends
on a line boundary (each chunk is a concatenation of newline-terminated,
newline-free, non-blank lines), the data handler delivers exactly the
appended lines, in file write order, with no duplication, reordering or
loss; a chunk ending in a partial line is instead emitted immediately as
a truncated message (see the counterexample), since no carry buffer
exists. -/
theorem tail_data_handler_line_aligned (chunkss : List (List Str))
    (h : ∀ l ∈ chunkss.flatten, '\n' ∉ l ∧ isBlank l = false) :
    chunksEmitted (chunkss.map joinLines) = chunkss.flatten := by
  induction chunkss with
  | nil => rfl
  | cons c rest ih =>
    have h1 : ∀ l ∈ c, '\n' ∉ l ∧ isBlank l = false := by
      intro l hl
      exact h l (by rw [List.flatten_cons]; exact List.mem_append_left _ hl)
    have h2 : ∀ l ∈ rest.flatten, '\n' ∉ l ∧ isBlank l = false := by
      intro l hl
      exact h l (by rw [List.flatten_cons]; exact List.mem_append_right _ hl)
    show handleChunk (joinLines c) ++ chunksEmitted (rest.map joinLines)
        = c ++ rest.flatten
    rw [show handleChunk (joinLines c) = c from nonBlankLines_joinLines c h1,
      ih h2]

/-- C1 amended, witness: two aligned chunks carrying the three lines
`ab`, `cd`, `ef` are delivered as exactly those three messages. -/
theorem tail_data_handler_line_aligned_witness :
    chunksEmitted
        ([["ab".toList], ["cd".toList, "ef".toList]].map joinLines)
      = [["ab".toList], ["cd".toList, "ef".toList]].flatten :=
  tail_data_handler_line_aligned
    [["ab".toList], ["cd".toList, "ef".toList]] (by decide)

/-! ## C2: session cleanup and tailer release -/

/-- C2.  Evaluating the session lifecycle at the failing inputs: with
filter `both` (both log files present), `cleanup` kills only the out
tailer stored in `tailProcess` and the error tailer stays running; with
filter `error` the error tailer likewise survives; and because `cleanup`
is registered on both the `close` and `error` events with no one-shot
guard, running it twice issues two kills of the same stored tailer. -/
theorem cleanup_leaves_error_tailer_running :
    runningTailers (cleanup (startTailing .both true true))
        = [TailerId.errTail]
    ∧ runningTailers (cleanup (startTailing .error true true))
        = [TailerId.errTail]
    ∧ (cleanup (cleanup (startTailing .both true true))).killed
        = [TailerId.outTail, TailerId.outTail] := by
  decide

/-! ## C3: rotation of the watched file -/

/-- C3, counterexample.  Rotating the watched file and then appending
the line `after` to the replacement: the spawned `tail -f` keeps
following the original file and emits nothing, where the claim requires
the line to be emitted after a reopen; a rotation-aware tailer
(`appendsOf`) would emit it.  The same holds for the whole channel
branch including the backlog replay. -/
theorem rotation_not_followed :
    tailFEmits [FileEvent.rotate, FileEvent.append "after".toList] = []
    ∧ appendsOf [FileEvent.rotate, FileEvent.append "after".toList]
        = ["after".toList]
    ∧ channelEmissions true []
        [FileEvent.rotate, FileEvent.append "after".toList] = [] := by
  decide

/-- C3, amended.  The tailer faithfully streams, in order, every line
appended before the first rotation, but the code performs no
identity/size comparison and never reopens the path: once the file is
rotated, no line written to the replacement file is ever emitted in that
session. -/
theorem tailF_streams_until_rotation (pre post : List FileEvent)
    (h : FileEvent.rotate ∉ pre) :
    tailFEmits pre = appendsOf pre
    ∧ tailFEmits (pre ++ FileEvent.rotate :: post) = appendsOf pre := by
  induction pre with
  | nil => simp [tailFEmits, appendsOf]
  | cons e rest ih =>
    cases e with
    | append l =>
      have h' : FileEvent.rotate ∉ rest :=
        fun hm => h (List.mem_cons_of_mem _ hm)
      obtain ⟨ih1, ih2⟩ := ih h'
      exact ⟨by simp [tailFEmits, appendsOf, ih1],
        by simp [tailFEmits, appendsOf, ih2]⟩
    | rotate => exact absurd (List.mem_cons_self _ _) h

/-- C3 amended, witness: with the line `a` appended before the rotation
and `b` after it, the tailer emits exactly `a`, both without and with
the rotation suffix. -/
theorem tailF_streams_until_rotation_witness :
    tailFEmits [FileEvent.append "a".toList]
        = appendsOf [FileEvent.append "a".toList]
    ∧ tailFEmits ([FileEvent.append "a".toList]
          ++ FileEvent.rotate :: [FileEvent.append "b".toList])
        = appendsOf [FileEvent.append "a".toList] :=
  tailF_streams_until_rotation [FileEvent.append "a".toList]
    [FileEvent.append "b".toList] (by decide)

/-! ## C4: missing log file at session start -/

/-- C4, counterexample.  When the selected log file does not exist at
session start, the channel branch of `startTailing` does nothing: a
line `x` written after the file is created is never streamed, where the
claim requires it to be streamed eventually. -/
theorem missing_file_never_polled :
    channelEmissions false [] [FileEvent.append "x".toList] = []
    ∧ "x".toList ∉
        channelEmissions false [] [FileEvent.append "x".toList] := by
  decide

/-- C4, amended.  A missing log file is indeed not fatal — the session
stays open and only `log`-type messages are ever produced for it — but
the tailer is simply never started: no `WaitingForFile` state or polling
exists, so nothing appended after the file is created is ever streamed
in that session. -/
theorem missing_file_channel_silent (content : Str)
    (events : List FileEvent) (procName : Str)
    (live : List (LogChannel × Str)) :
    channelEmissions false content events = []
    ∧ (streamLogsMsgs procName .both false content false content
        live).all isLogMsg = true := by
  refine ⟨rfl, ?_⟩
  show (live.map
    (fun p => WsMsg.logMsg procName p.1 p.2)).all isLogMsg = true
  induction live with
  | nil => rfl
  | cons p rest ih => exact ih

/-! ## C5: connected acknowledgment precedes all log messages -/

theorem streamLogsMsgs_all_log (procName : Str) (filter : ChannelFilter)
    (outExists : Bool) (outContent : Str) (errExists : Bool)
    (errContent : Str) (live : List (LogChannel × Str)) :
    ∀ m ∈ streamLogsMsgs procName filter outExists outContent
        errExists errContent live, isLogMsg m = true := by
  intro m hm
  unfold streamLogsMsgs at hm
  rcases List.mem_append.mp hm with hAB | hC
  · rcases List.mem_append.mp hAB with hA | hB
    · split at hA
      · obtain ⟨l, _, rfl⟩ := List.mem_map.mp hA
        rfl
      · cases hA
    · split at hB
      · obtain ⟨l, _, rfl⟩ := List.mem_map.mp hB
        rfl
      · cases hB
  · obtain ⟨p, _, rfl⟩ := List.mem_map.mp hC
    rfl

theorem not_connected_of_log (m : WsMsg) (h : isLogMsg m = true) :
    isConnectedMsg m = false := by
  cases m <;> simp_all [isLogMsg, isConnectedMsg]

/-- C5.  For every process the directory query finds, the connection
handler's message trace starts with the `connected` acknowledgment, that
acknowledgment is the only `connected` message of the whole trace, and
everything after it — the replayed backlog of up to 100 existing lines
and all live tail output — consists solely of `log` messages. -/
theorem connected_precedes_logs (query : SupervisorQuery)
    (procName : Str) (filter : ChannelFilter)
    (outContent errContent : Str) (live : List (LogChannel × Str))
    (p : RawProc) (h : getPM2Process query procName = some p) :
    (connectionMsgs query procName filter true outContent true
        errContent live).head? = some (WsMsg.connected procName)
    ∧ (connectionMsgs query procName filter true outContent true
        errContent live).filter isConnectedMsg
        = [WsMsg.connected procName]
    ∧ ∀ m ∈ (connectionMsgs query procName filter true outContent true
        errContent live).tail, isLogMsg m = true := by
  have hmsgs : connectionMsgs query procName filter true outContent
      true errContent live
      = WsMsg.connected procName ::
          streamLogsMsgs procName filter true outContent true
            errContent live := by
    unfold connectionMsgs
    rw [h]
  refine ⟨by rw [hmsgs]; rfl, ?_, ?_⟩
  · rw [hmsgs, List.filter_cons]
    have hnil : (streamLogsMsgs procName filter true outContent true
        errContent live).filter isConnectedMsg = [] :=
      List.filter_eq_nil_iff.mpr (fun m hm => by
        rw [not_connected_of_log m
          (streamLogsMsgs_all_log _ _ _ _ _ _ _ m hm)]
        exact Bool.false_ne_true)
    simp [isConnectedMsg, hnil]
  · rw [hmsgs]
    exact streamLogsMsgs_all_log _ _ _ _ _ _ _

/-- C5, witness: a directory holding the single process `app`, a
one-line backlog in each file and one live line; the trace starts with
`connected`, contains it exactly once, and the rest are log messages. -/
theorem connected_precedes_logs_witness :
    (connectionMsgs
        (Except.ok [RawProc.mk "app".toList none none none none 1
          none none])
        "app".toList .both true "o1\n".toList true "e1\n".toList
        [(LogChannel.out, "x".toList)]).head?
        = some (WsMsg.connected "app".toList)
    ∧ (connectionMsgs
        (Except.ok [RawProc.mk "app".toList none none none none 1
          none none])
        "app".toList .both true "o1\n".toList true "e1\n".toList
        [(LogChannel.out, "x".toList)]).filter isConnectedMsg
        = [WsMsg.connected "app".toList]
    ∧ ∀ m ∈ (connectionMsgs
        (Except.ok [RawProc.mk "app".toList none none none none 1
          none none])
        "app".toList .both true "o1\n".toList true "e1\n".toList
        [(LogChannel.out, "x".toList)]).tail, isLogMsg m = true :=
  connected_precedes_logs
    (Except.ok [RawProc.mk "app".toList none none none none 1
      none none])
    "app".toList .both "o1\n".toList "e1\n".toList
    [(LogChannel.out, "x".toList)]
    (RawProc.mk "app".toList none none none none 1 none none)
    (by decide)

/-! ## C6: GET /pm2/[name]/logs with 10 out-lines and 5 error-lines -/

/-- C6, counterexample.  With the write history `sampleWrites` (five
error lines, then ten out lines) the premise holds — the out log has 10
lines and the error log 5 — and the chronologically last line written is
`o10`; yet the response's first entry is the error log's last line `e5`,
because the handler merely reverses the out-then-error concatenation and
never consults write chronology. -/
theorem logs_head_not_chronological :
    (nonBlankLines (filesAfter sampleWrites).1).length = 10
    ∧ (nonBlankLines (filesAfter sampleWrites).2).length = 5
    ∧ lastWrittenLine sampleWrites = some "o10".toList
    ∧ (logsSuccessBody "s".toList (some (filesAfter sampleWrites).1)
        (some (filesAfter sampleWrites).2)).logs.head?
        = some (LogEntry.mk .error "e5".toList none)
    ∧ LogEntry.mk .error "e5".toList none
        ≠ LogEntry.mk .out "o10".toList none := by
  decide

/-- C6, amended.  For an existing process whose out log holds 10
non-blank lines and whose error log holds 5, the response carries
`totalLines = 15`, `outLogLines = 10`, `errorLogLines = 5`, the `logs`
array has all 15 entries (within the 1000 cap), and its first entry is
the last line of the error log — the reversal of concatenating out-lines
then error-lines — which coincides with the chronologically last write
only when that write went to the error log. -/
theorem logs_endpoint_counts_and_head (name outC errC : Str)
    (hOut : (nonBlankLines outC).length = 10)
    (hErr : (nonBlankLines errC).length = 5) :
    (logsSuccessBody name (some outC) (some errC)).totalLines = 15
    ∧ (logsSuccessBody name (some outC) (some errC)).outLogLines = 10
    ∧ (logsSuccessBody name (some outC) (some errC)).errorLogLines = 5
    ∧ (logsSuccessBody name (some outC) (some errC)).logs.length = 15
    ∧ (logsSuccessBody name (some outC) (some errC)).logs.head?
        = ((nonBlankLines errC).getLast?).map
            (fun l => LogEntry.mk .error l none) := by
  have hol : ((nonBlankLines outC).map
      (fun line => LogEntry.mk .out line none)).length = 10 := by
    rw [List.length_map, hOut]
  have hel : ((nonBlankLines errC).map
      (fun line => LogEntry.mk .error line none)).length = 5 := by
    rw [List.length_map, hErr]
  have helne : ((nonBlankLines errC).map
      (fun line => LogEntry.mk .error line none)) ≠ [] := by
    intro hn
    rw [hn] at hel
    exact absurd hel (by decide)
  simp only [logsSuccessBody]
  refine ⟨?_, hol, hel, ?_, ?_⟩
  · rw [List.length_reverse, List.length_append, hol, hel]
  · rw [List.length_take, List.length_reverse, List.length_append,
      hol, hel]
    decide
  · rw [List.take_of_length_le
      (by rw [List.length_reverse, List.length_append, hol, hel]
          decide)]
    rw [List.head?_reverse, List.getLast?_append_of_ne_nil _ helne,
      List.getLast?_map]

/-- C6 amended, witness: concrete files with the lines `o1`..`o10` and
`e1`..`e5`; the response reports 15/10/5, returns all 15 entries, and
its first entry is `e5`. -/
theorem logs_endpoint_counts_and_head_witness :
    (logsSuccessBody "s".toList
        (some "o1\no2\no3\no4\no5\no6\no7\no8\no9\no10\n".toList)
        (some "e1\ne2\ne3\ne4\ne5\n".toList)).totalLines = 15
    ∧ (logsSuccessBody "s".toList
        (some "o1\no2\no3\no4\no5\no6\no7\no8\no9\no10\n".toList)
        (some "e1\ne2\ne3\ne4\ne5\n".toList)).outLogLines = 10
    ∧ (logsSuccessBody "s".toList
        (some "o1\no2\no3\no4\no5\no6\no7\no8\no9\no10\n".toList)
        (some "e1\ne2\ne3\ne4\ne5\n".toList)).errorLogLines = 5
    ∧ (logsSuccessBody "s".toList
        (some "o1\no2\no3\no4\no5\no6\no7\no8\no9\no10\n".toList)
        (some "e1\ne2\ne3\ne4\ne5\n".toList)).logs.length = 15
    ∧ (logsSuccessBody "s".toList
        (some "o1\no2\no3\no4\no5\no6\no7\no8\no9\no10\n".toList)
        (some "e1\ne2\ne3\ne4\ne5\n".toList)).logs.head?
        = ((nonBlankLines "e1\ne2\ne3\ne4\ne5\n".toList).getLast?).map
            (fun l => LogEntry.mk .error l none) :=
  logs_endpoint_counts_and_head "s".toList
    "o1\no2\no3\no4\no5\no6\no7\no8\no9\no10\n".toList
    "e1\ne2\ne3\ne4\ne5\n".toList (by decide) (by decide)

/-! ## C7 and C10: shape and invariants of the logs array -/

theorem mem_logs (name : Str) (outC errC : Option Str) (ent : LogEntry)
    (h : ent ∈ (logsSuccessBody name outC errC).logs) :
    ent.timestamp = none
    ∧ ((∃ c, outC = some c ∧ ent.type = .out
          ∧ ent.message ∈ nonBlankLines c)
       ∨ (∃ c, errC = some c ∧ ent.type = .error
          ∧ ent.message ∈ nonBlankLines c)) := by
  simp only [logsSuccessBody] at h
  have h1 := List.take_subset _ _ h
  rw [List.mem_reverse] at h1
  rcases List.mem_append.mp h1 with ho | he
  · cases outC with
    | none => exact absurd ho (List.not_mem_nil _)
    | some c =>
      obtain ⟨l, hl, rfl⟩ := List.mem_map.mp ho
      exact ⟨rfl, Or.inl ⟨c, rfl, rfl, hl⟩⟩
  · cases errC with
    | none => exact absurd he (List.not_mem_nil _)
    | some c =>
      obtain ⟨l, hl, rfl⟩ := List.mem_map.mp he
      exact ⟨rfl, Or.inr ⟨c, rfl, rfl, hl⟩⟩

/-- C7.  Every entry of the `logs` array is the record
`{type, message, timestamp}` (exactly those three fields, by the shape
of `LogEntry`): its `timestamp` is null, and its `type` correctly
classifies the line — an `out` entry carries a line of the out file and
an `error` entry a line of the error file. -/
theorem log_entries_fields (name : Str) (outC errC : Option Str)
    (ent : LogEntry)
    (h : ent ∈ (logsSuccessBody name outC errC).logs) :
    ent.timestamp = none
    ∧ (ent.type = .out →
        ∃ c, outC = some c ∧ ent.message ∈ nonBlankLines c)
    ∧ (ent.type = .error →
        ∃ c, errC = some c ∧ ent.message ∈ nonBlankLines c) := by
  obtain ⟨ht, hc⟩ := mem_logs name outC errC ent h
  refine ⟨ht, ?_, ?_⟩
  · intro hty
    rcases hc with ⟨c, hoc, _, hm⟩ | ⟨c, _, hty2, _⟩
    · exact ⟨c, hoc, hm⟩
    · rw [hty] at hty2
      simp at hty2
  · intro hty
    rcases hc with ⟨c, _, hty2, _⟩ | ⟨c, hec, _, hm⟩
    · rw [hty] at hty2
      simp at hty2
    · exact ⟨c, hec, hm⟩

/-- C7, witness: for an out file `"a\n"` and no error file, the single
entry `{type: out, message: "a", timestamp: null}` satisfies the field
properties. -/
theorem log_entries_fields_witness :
    (LogEntry.mk .out "a".toList none).timestamp = none
    ∧ ((LogEntry.mk .out "a".toList none).type = .out →
        ∃ c, (some "a\n".toList) = some c
          ∧ (LogEntry.mk .out "a".toList none).message
              ∈ nonBlankLines c)
    ∧ ((LogEntry.mk .out "a".toList none).type = .error →
        ∃ c, (none : Option Str) = some c
          ∧ (LogEntry.mk .out "a".toList none).message
              ∈ nonBlankLines c) :=
  log_entries_fields "s".toList (some "a\n".toList) none
    (LogEntry.mk .out "a".toList none) (by decide)

/-- C10.  Every success body satisfies
`totalLines = outLogLines + errorLogLines`, its `logs` array has length
`min totalLines 1000`, and no entry's line is blank or whitespace-only
(such lines are filtered out of both counts and array). -/
theorem logs_response_invariants (name : Str) (outC errC : Option Str) :
    (logsSuccessBody name outC errC).totalLines
        = (logsSuccessBody name outC errC).outLogLines
          + (logsSuccessBody name outC errC).errorLogLines
    ∧ (logsSuccessBody name outC errC).logs.length
        = min (logsSuccessBody name outC errC).totalLines 1000
    ∧ (logsSuccessBody name outC errC).logs.all
        (fun ent => !isBlank ent.message) = true := by
  refine ⟨?_, ?_, ?_⟩
  · simp only [logsSuccessBody]
    rw [List.length_reverse, List.length_append]
  · simp only [logsSuccessBody]
    rw [List.length_take]
    exact Nat.min_comm _ _
  · rw [List.all_eq_true]
    intro ent hent
    obtain ⟨_, hc⟩ := mem_logs name outC errC ent hent
    rcases hc with ⟨c, _, _, hm⟩ | ⟨c, _, _, hm⟩ <;>
    · unfold nonBlankLines at hm
      exact (List.mem_filter.mp hm).2

/-! ## C8: restart of an unknown process -/

/-- C8.  Whenever the existence re-check finds no process of the given
name, `restartPM2Process` returns a failure result whose message is
`Process <name> not found`, and the only supervisor command issued is
the `pm2 jlist` query — no restart command of any name is ever run. -/
theorem restart_unknown_not_found (query : SupervisorQuery)
    (outcome : Except Str Unit) (name : Str)
    (h : getPM2Process query name = none) :
    (restartPM2Process query outcome name).1.success = false
    ∧ (restartPM2Process query outcome name).1.message
        = "Process ".toList ++ name ++ " not found".toList
    ∧ (restartPM2Process query outcome name).2 = [Cmd.jlist]
    ∧ ∀ m, Cmd.restart m ∉ (restartPM2Process query outcome name).2 := by
  have hr : restartPM2Process query outcome name
      = (⟨false, "Process ".toList ++ name ++ " not found".toList⟩,
         [Cmd.jlist]) := by
    unfold restartPM2Process
    rw [h]
  rw [hr]
  refine ⟨rfl, rfl, rfl, ?_⟩
  intro m hm
  simp at hm

/-- C8, witness: with an empty supervisor list, restarting `x` fails
with the not-found message and issues only the list query. -/
theorem restart_unknown_not_found_witness :
    (restartPM2Process (Except.ok []) (Except.ok ())
        "x".toList).1.success = false
    ∧ (restartPM2Process (Except.ok []) (Except.ok ())
        "x".toList).1.message
        = "Process ".toList ++ "x".toList ++ " not found".toList
    ∧ (restartPM2Process (Except.ok []) (Except.ok ())
        "x".toList).2 = [Cmd.jlist]
    ∧ ∀ m, Cmd.restart m ∉ (restartPM2Process (Except.ok [])
        (Except.ok ()) "x".toList).2 :=
  restart_unknown_not_found (Except.ok []) (Except.ok ()) "x".toList
    (by decide)

/-! ## C9: supervisor query failure in getPM2Processes -/

/-- C9.  For every failure of the supervisor query (exec error or parse
error alike), `getPM2Processes` returns the empty process list together
with exactly one logged message reporting the condition; being a total
function into a pair, it propagates no exception. -/
theorem listProcesses_failure_empty (e : Str) :
    getPM2Processes (Except.error e)
      = ([], ["Error getting PM2 processes: ".toList ++ e]) := rfl

end PM2
